import Mathlib

/-!
Verification of the two-stage text summarization pipeline in
`backend/pipeline/extractors.py`.

Texts are modelled as lists of Unicode code points (`List Nat`); Python strings
in the pipeline are built and inspected code-point-wise, so every relevant
string operation (split, strip, join, slicing, rfind, len) has a direct
counterpart below.  Python whitespace handling is modelled on the ASCII
whitespace set, which covers every string the pipeline itself constructs.

The language-model backend (Ollama HTTP calls), which is an external
collaborator, is modelled as an oracle `Backend` mapping each request to a
response, a timeout, or another transport error; the thread-pool scheduler is
modelled by an explicit completion order together with index-addressed result
slots, exactly mirroring `_parallel_chunk_summarization`.
-/

set_option maxRecDepth 10000

/-- Python whitespace predicate (ASCII part of str.strip whitespace). -/
def isPySpace (c : Nat) : Bool :=
  c == 32 || c == 9 || c == 10 || c == 13 || c == 11 || c == 12

/-- Python str.strip: drop whitespace from both ends of the string. -/
def stripList (s : List Nat) : List Nat :=
  List.rdropWhile isPySpace (s.dropWhile isPySpace)

/-- Python str.split on a single newline separator: splitting the empty string
gives one empty part, and every newline separates two (possibly empty) parts. -/
def splitNl : List Nat → List (List Nat)
  | [] => [[]]
  | c :: rest =>
    let r := splitNl rest
    if c == 10 then [] :: r else (c :: r.headD []) :: r.tail

/-- Python newline.join. -/
def joinNl : List (List Nat) → List Nat
  | [] => []
  | [l] => l
  | l :: l2 :: ls => l ++ 10 :: joinNl (l2 :: ls)

/-- Python slice index resolution: a negative index counts from the end of the
string (clamped at 0), a nonnegative one is clamped at the length. -/
def pyIdx (len : Nat) (i : Int) : Nat :=
  if i < 0 then ((len : Int) + i).toNat else min i.toNat len

/-- Python slicing text[a:b] with step 1. -/
def pySlice (t : List Nat) (a b : Int) : List Nat :=
  (t.take (pyIdx t.length b)).drop (pyIdx t.length a)

/-- Decimal digit expansion, fuel-driven so that it reduces in the kernel;
the fuel n+1 always suffices. -/
def natDecimalAux : Nat → Nat → List Nat
  | 0, _ => []
  | fuel + 1, n => if n < 10 then [48 + n] else natDecimalAux fuel (n / 10) ++ [48 + n % 10]

/-- Code points of Python str(n) for a natural number n. -/
def natDecimal (n : Nat) : List Nat :=
  natDecimalAux (n + 1) n

/-- Code points of "\n\n[Content truncated for length...]" (length 35). -/
def truncationNotice : List Nat :=
  [10, 10, 91, 67, 111, 110, 116, 101, 110, 116, 32, 116, 114, 117, 110, 99, 97,
   116, 101, 100, 32, 102, 111, 114, 32, 108, 101, 110, 103, 116, 104, 46, 46, 46, 93]

/-- The stripped nonempty lines of a text: Python
[line.strip() for line in text.split("\n") if line.strip()]. -/
def linesOf (t : List Nat) : List (List Nat) :=
  ((splitNl t).map stripList).filter (fun l => !l.isEmpty)

/-- The whitespace-collapsed text "\n".join(lines), before the length cap is
applied: the intermediate value named cleaned in clean_text_for_llm. -/
def collapse (t : List Nat) : List Nat := joinNl (linesOf t)

/-- Embedding of clean_text_for_llm(text, max_chars=24000): collapse
whitespace per line, drop blank lines, rejoin with single newlines, and if the
result exceeds max_chars keep its first max_chars characters and append the
truncation notice. -/
def clean_text_for_llm (text : List Nat) (max_chars : Nat := 24000) : List Nat :=
  if max_chars < (collapse text).length then
    (collapse text).take max_chars ++ truncationNotice
  else collapse text

/-- CHUNK_SIZE_TOKENS constant from the source. -/
def CHUNK_SIZE_TOKENS : Nat := 1000

/-- CHUNK_OVERLAP_TOKENS constant from the source. -/
def CHUNK_OVERLAP_TOKENS : Nat := 75

/-- CHARS_PER_TOKEN constant from the source. -/
def CHARS_PER_TOKEN : Nat := 4

/-- MAX_WORKERS constant from the source. -/
def MAX_WORKERS : Nat := 2

/-- Rightmost position r in seg such that seg[r:r+2] is ". " (period then
space), if any: the relative search of Python str.rfind(". ", a, b) inside the
resolved segment text[a:b]. -/
def rfindRel (seg : List Nat) : Option Nat :=
  (List.range seg.length).reverse.find?
    (fun r => decide (r + 2 ≤ seg.length) && ((seg.drop r).take 2 == [46, 32]))

/-- Python text.rfind(". ", a, b): resolve the slice bounds, search the segment
for the rightmost occurrence of period-space, and return its absolute index,
or -1 when there is none. -/
def rfindDotSpace (t : List Nat) (a b : Int) : Int :=
  match rfindRel ((t.take (pyIdx t.length b)).drop (pyIdx t.length a)) with
  | some r => (pyIdx t.length a : Int) + r
  | none => -1

/-- One iteration of chunk_text: the end offset for the chunk starting at
start.  Propose start + chunk_chars; if that stays strictly inside the text,
look back (at most 200 characters, never before start) for the last sentence
boundary ". " and, when one is found strictly after start, end just past its
period. -/
def chunkIterEnd (t : List Nat) (chunk_chars : Nat) (start : Int) : Int :=
  let e0 := start + (chunk_chars : Int)
  if e0 < (t.length : Int) then
    let ss := max (e0 - 200) start
    let lp := rfindDotSpace t ss e0
    if start < lp then lp + 1 else e0
  else e0

/-- One iteration of chunk_text: the next value of start.  Python computes
start = end - overlap_chars if end < text_len else text_len, over unbounded
integers, which is why start is an Int here. -/
def chunkNext (t : List Nat) (chunk_chars overlap_chars : Nat) (start : Int) : Int :=
  let e := chunkIterEnd t chunk_chars start
  if e < (t.length : Int) then e - (overlap_chars : Int) else (t.length : Int)

/-- The while loop of chunk_text, recording the (start, end) span of every
chunk it appends (a chunk is appended iff its stripped slice is nonempty).
The loop in the source has no iteration bound; the fuel argument caps the
number of iterations so the function is total, and the development proves that
with the pipeline configuration every iteration advances start, so the fuel
used by chunk_text_spans is never exhausted and the fueled loop agrees with
the source loop.  (Claim C3 exhibits a configuration where the source loop
never terminates; there the fueled loop emits one chunk per unit of fuel.) -/
def chunk_spans_loop (t : List Nat) (chunk_chars overlap_chars : Nat) :
    Nat → Int → List (Int × Int)
  | 0, _ => []
  | fuel + 1, start =>
    if start < (t.length : Int) then
      let e := chunkIterEnd t chunk_chars start
      let rest := chunk_spans_loop t chunk_chars overlap_chars fuel
        (chunkNext t chunk_chars overlap_chars start)
      if stripList (pySlice t start e) == [] then rest else (start, e) :: rest
    else []

/-- The spans (start, end) of the chunks emitted by
chunk_text(text, chunk_size, overlap). -/
def chunk_text_spans (t : List Nat) (chunk_size : Nat := CHUNK_SIZE_TOKENS)
    (overlap : Nat := CHUNK_OVERLAP_TOKENS) : List (Int × Int) :=
  chunk_spans_loop t (chunk_size * CHARS_PER_TOKEN) (overlap * CHARS_PER_TOKEN)
    (t.length + 1) 0

/-- Embedding of chunk_text(text, chunk_size, overlap): each emitted chunk is
the stripped slice text[start:end] of its span. -/
def chunk_text (t : List Nat) (chunk_size : Nat := CHUNK_SIZE_TOKENS)
    (overlap : Nat := CHUNK_OVERLAP_TOKENS) : List (List Nat) :=
  (chunk_text_spans t chunk_size overlap).map (fun p => stripList (pySlice t p.1 p.2))

/-- The three kinds of language-model backend requests the pipeline issues:
a per-chunk bullet extraction, the single-pass summary, and the merge call. -/
inductive LlmCall where
  | chunk (idx : Nat) (text : List Nat)
  | single (text : List Nat)
  | merge (combined : List Nat)
deriving DecidableEq

/-- Outcome of one backend request: a generated response, a request timeout,
or any other transport/HTTP error carrying the exception text str(e). -/
inductive LlmResult where
  | ok (response : List Nat)
  | timeout
  | fail (msg : List Nat)
deriving DecidableEq

/-- The backend oracle: what the language-model endpoint does on each
request. -/
def Backend : Type := LlmCall → LlmResult

/-- Python exception-or-value outcome of a pipeline stage. -/
inductive PyResult (α : Type) where
  | raised (msg : List Nat)
  | returned (v : α)
deriving DecidableEq

/-- Code points of "• [Chunk " (length 9). -/
def bulletChunkPrefix : List Nat :=
  [8226, 32, 91, 67, 104, 117, 110, 107, 32]

/-- Code points of " processing failed: " (length 20). -/
def processingFailedInfix : List Nat :=
  [32, 112, 114, 111, 99, 101, 115, 115, 105, 110, 103, 32, 102, 97, 105, 108,
   101, 100, 58, 32]

/-- Code points of " failed]" (length 8). -/
def failedSuffix : List Nat :=
  [32, 102, 97, 105, 108, 101, 100, 93]

/-- Abstract exception text of a request timeout, standing for the str(e) of
the timeout exception (code points of "timeout"). -/
def timeoutWord : List Nat :=
  [116, 105, 109, 101, 111, 117, 116]

/-- The sentinel summarize_chunk_sync returns when the backend call for chunk
chunk_idx raises, Python

"• [Chunk " + str(chunk_idx + 1) + " processing failed: " + str(e)[:50] + "]". -/
def chunkFailSentinel (chunk_idx : Nat) (msg : List Nat) : List Nat :=
  bulletChunkPrefix ++ natDecimal (chunk_idx + 1) ++ processingFailedInfix ++
    msg.take 50 ++ [93]

/-- The sentinel _parallel_chunk_summarization stores when future.result()
itself raises for index idx, Python "• [Chunk " + str(idx + 1) + " failed]". -/
def taskSentinel (idx : Nat) : List Nat :=
  bulletChunkPrefix ++ natDecimal (idx + 1) ++ failedSuffix

/-- Embedding of summarize_chunk_sync(chunk, chunk_idx): issue the per-chunk
backend request; on success prepend a bullet when the stripped response does
not already start with one; on any exception (timeout included) return the
chunk-failure sentinel instead of raising. -/
def summarize_chunk_sync (b : Backend) (chunk : List Nat) (chunk_idx : Nat) : List Nat :=
  match b (LlmCall.chunk chunk_idx chunk) with
  | LlmResult.ok summary =>
    if !summary.isEmpty && !((stripList summary).head? == some 8226) then
      8226 :: 32 :: summary
    else summary
  | LlmResult.timeout => chunkFailSentinel chunk_idx timeoutWord
  | LlmResult.fail msg => chunkFailSentinel chunk_idx msg

/-- The value stored into result slot idx by the scheduler: the task for idx
computes summarize_chunk_sync(chunks[idx], idx); when future.result() raises
(modelled by the task-failure oracle tf) the except branch stores the
task-failure sentinel instead. -/
def slotValue (b : Backend) (tf : Nat → Bool) (chunks : List (List Nat)) (idx : Nat) :
    List Nat :=
  if tf idx then taskSentinel idx
  else summarize_chunk_sync b (chunks.getD idx []) idx

/-- The slot-filling of _parallel_chunk_summarization: start from
[None] * len(chunks) and, following the completion order of the futures,
write each completed result into its home index slot. -/
def fillSlots (b : Backend) (tf : Nat → Bool) (chunks : List (List Nat))
    (order : List Nat) : List (Option (List Nat)) :=
  order.foldl (fun slots idx => slots.set idx (some (slotValue b tf chunks idx)))
    (List.replicate chunks.length none)

/-- Embedding of _parallel_chunk_summarization(chunks): the filled slot list,
read back as plain summaries.  In the source every future appears in
as_completed, so every slot is populated before the list is read; the []
default is therefore never used for a completion order that covers every
index (proved with claim C4). -/
def _parallel_chunk_summarization (b : Backend) (tf : Nat → Bool)
    (chunks : List (List Nat)) (order : List Nat) : List (List Nat) :=
  (fillSlots b tf chunks order).map (fun o => o.getD [])

/-- Stage 1 of generate_summary: with at most 2 chunks summarize them
sequentially in index order, otherwise through the thread-pool scheduler. -/
def chunkSummaries (b : Backend) (tf : Nat → Bool) (order : List Nat)
    (chunks : List (List Nat)) : List (List Nat) :=
  if chunks.length ≤ 2 then
    chunks.mapIdx (fun i c => summarize_chunk_sync b c i)
  else _parallel_chunk_summarization b tf chunks order

/-- Code points of "Summary generation timed out. Please try with a smaller
document." -/
def singleTimeoutMsg : List Nat :=
  [83, 117, 109, 109, 97, 114, 121, 32, 103, 101, 110, 101, 114, 97, 116, 105,
   111, 110, 32, 116, 105, 109, 101, 100, 32, 111, 117, 116, 46, 32, 80, 108,
   101, 97, 115, 101, 32, 116, 114, 121, 32, 119, 105, 116, 104, 32, 97, 32,
   115, 109, 97, 108, 108, 101, 114, 32, 100, 111, 99, 117, 109, 101, 110, 116, 46]

/-- Code points of "Summary generation failed: ". -/
def singleFailPrefix : List Nat :=
  [83, 117, 109, 109, 97, 114, 121, 32, 103, 101, 110, 101, 114, 97, 116, 105,
   111, 110, 32, 102, 97, 105, 108, 101, 100, 58, 32]

/-- Code points of "Summary merge failed: ". -/
def mergeFailPrefix : List Nat :=
  [83, 117, 109, 109, 97, 114, 121, 32, 109, 101, 114, 103, 101, 32, 102, 97,
   105, 108, 101, 100, 58, 32]

/-- Code points of "Key Points:\n". -/
def keyPointsHeader : List Nat :=
  [75, 101, 121, 32, 80, 111, 105, 110, 116, 115, 58, 10]

/-- Embedding of _generate_single_summary(text): one backend call; a read
timeout raises ValueError with the fixed timeout message, any other exception
raises ValueError with the prefixed exception text.  There is no fallback
result on this path. -/
def _generate_single_summary (b : Backend) (text : List Nat) : PyResult (List Nat) :=
  match b (LlmCall.single text) with
  | LlmResult.ok r => PyResult.returned r
  | LlmResult.timeout => PyResult.raised singleTimeoutMsg
  | LlmResult.fail msg => PyResult.raised (singleFailPrefix ++ msg)

/-- Embedding of _merge_summaries(chunk_summaries): join the summaries in
index order with newlines, issue the merge call; a read timeout degrades to
returning the combined bullets behind the "Key Points:" header, any other
exception raises ValueError with the prefixed exception text. -/
def _merge_summaries (b : Backend) (summaries : List (List Nat)) : PyResult (List Nat) :=
  match b (LlmCall.merge (joinNl summaries)) with
  | LlmResult.ok r => PyResult.returned r
  | LlmResult.timeout => PyResult.returned (keyPointsHeader ++ joinNl summaries)
  | LlmResult.fail msg => PyResult.raised (mergeFailPrefix ++ msg)

/-- Embedding of generate_summary(text): normalize, then either the direct
single-pass call (normalized length strictly below 3000 characters) or
split -> stage-1 summaries -> merge. -/
def generate_summary (b : Backend) (tf : Nat → Bool) (order : List Nat)
    (text : List Nat) : PyResult (List Nat) :=
  let cleaned := clean_text_for_llm text
  if cleaned.length < 3000 then _generate_single_summary b cleaned
  else _merge_summaries b (chunkSummaries b tf order (chunk_text cleaned))

/-- The backend requests generate_summary issues, in order: just the
single-pass call on the short-text path, and one per-chunk call per chunk
followed by the merge call on the chunked path. -/
def generate_summary_calls (b : Backend) (tf : Nat → Bool) (order : List Nat)
    (text : List Nat) : List LlmCall :=
  let cleaned := clean_text_for_llm text
  if cleaned.length < 3000 then [LlmCall.single cleaned]
  else
    let chunks := chunk_text cleaned
    (List.range chunks.length).map (fun i => LlmCall.chunk i (chunks.getD i [])) ++
      [LlmCall.merge (joinNl (chunkSummaries b tf order chunks))]

/-- One update_status record written to the status sink. -/
structure StatusUpdate where
  status : List Nat
  progress : Nat
  message : List Nat
deriving DecidableEq

/-- Code points of "summarizing". -/
def statusWordSummarizing : List Nat :=
  [115, 117, 109, 109, 97, 114, 105, 122, 105, 110, 103]

/-- Code points of "complete". -/
def statusWordComplete : List Nat :=
  [99, 111, 109, 112, 108, 101, 116, 101]

/-- Code points of "error". -/
def statusWordError : List Nat :=
  [101, 114, 114, 111, 114]

/-- Code points of "Generating AI summary...". -/
def genMsg : List Nat :=
  [71, 101, 110, 101, 114, 97, 116, 105, 110, 103, 32, 65, 73, 32, 115, 117,
   109, 109, 97, 114, 121, 46, 46, 46]

/-- Code points of "Summary generated successfully!". -/
def doneMsg : List Nat :=
  [83, 117, 109, 109, 97, 114, 121, 32, 103, 101, 110, 101, 114, 97, 116, 101,
   100, 32, 115, 117, 99, 99, 101, 115, 115, 102, 117, 108, 108, 121, 33]

/-- Code points of "Failed to generate summary". -/
def failedGenMsg : List Nat :=
  [70, 97, 105, 108, 101, 100, 32, 116, 111, 32, 103, 101, 110, 101, 114, 97,
   116, 101, 32, 115, 117, 109, 109, 97, 114, 121]

/-- The update_status record at the start of process_text: status summarizing,
progress 50, message Generating AI summary. -/
def updSummarizing : StatusUpdate :=
  ⟨statusWordSummarizing, 50, genMsg⟩

/-- The terminal update_status record on success: status complete, progress
100, message Summary generated successfully. -/
def updComplete : StatusUpdate :=
  ⟨statusWordComplete, 100, doneMsg⟩

/-- The terminal update_status record when the pipeline raises: status error,
progress 0, the exception text as the message. -/
def updError (msg : List Nat) : StatusUpdate :=
  ⟨statusWordError, 0, msg⟩

/-- Embedding of process_text(firebase_uid, file_id, text, title): emit the
summarizing status, run generate_summary, raise when the summary is empty or
whitespace-only, persist on success and emit the terminal status.  The result
is the ordered status trace together with the raised-or-stored outcome.
Note the source has no emptiness check on the input text itself. -/
def process_text (b : Backend) (tf : Nat → Bool) (order : List Nat)
    (text : List Nat) : List StatusUpdate × PyResult (List Nat) :=
  match generate_summary b tf order text with
  | PyResult.raised msg => ([updSummarizing, updError msg], PyResult.raised msg)
  | PyResult.returned s =>
    if s.isEmpty || (stripList s).isEmpty then
      ([updSummarizing, updError failedGenMsg], PyResult.raised failedGenMsg)
    else ([updSummarizing, updComplete], PyResult.returned s)

/-- A 3000-character normalized text: exactly at the short-text threshold. -/
def tA : List Nat := List.replicate 3000 97

/-- A backend that answers every request with the bullet line made of a bullet,
a space and the letter a. -/
def bOk : Backend := fun _ => LlmResult.ok [8226, 32, 97]

/-- A backend on which every request times out. -/
def bTimeoutAll : Backend := fun _ => LlmResult.timeout

/-- The task-failure oracle under which no future raises. -/
def tfNone : Nat → Bool := fun _ => false

/-- A backend that fails every request with the exception text boom. -/
def bBoom : Backend := fun _ => LlmResult.fail [98, 111, 111, 109]

/-- The task-failure oracle under which every future raises. -/
def tfAll : Nat → Bool := fun _ => true

/-- A backend that times out on the merge request and answers every other
request with a bullet line. -/
def bMergeTimeout : Backend := fun c =>
  match c with
  | LlmCall.merge _ => LlmResult.timeout
  | _ => LlmResult.ok [8226, 32, 97]

/-- The truncation notice without its two leading newlines. -/
def notice33 : List Nat :=
  [91, 67, 111, 110, 116, 101, 110, 116, 32, 116, 114, 117, 110, 99, 97,
   116, 101, 100, 32, 102, 111, 114, 32, 108, 101, 110, 103, 116, 104, 46, 46, 46, 93]

/-- An input on which normalizing is not idempotent: 23999 a characters, one
space, two b characters.  The first normalization cuts right after the space;
the second strips that now-trailing space, pulling the truncation cut one
character earlier. -/
def t8 : List Nat := List.replicate 23999 97 ++ [32, 98, 98]

/-- A 9002-character normalized text with a 9000-character whitespace run:
one a, 9000 spaces, one b.  The middle splitter window is entirely
whitespace, strips to the empty chunk, and is silently skipped. -/
def gapText : List Nat := 97 :: (List.replicate 9000 32 ++ [98])

/-- The 10-character text of the stalling configuration for C3. -/
def tC3 : List Nat := List.replicate 10 97

/-- A backend whose every response is the two-letter word ok. -/
def bStub : Backend := fun _ => LlmResult.ok [111, 107]

/-- A backend whose every response is the empty string. -/
def bEmptyResp : Backend := fun _ => LlmResult.ok []

/-- Code points of a six-sentence test string used by the
cross-validation examples at the end of the file. -/
def tSents : List Nat :=
  [79, 110, 101, 46, 32, 84, 119, 111, 46, 32, 84, 104, 114, 101, 101, 46, 32,
   70, 111, 117, 114, 46, 32, 70, 105, 118, 101, 46, 32, 83, 105, 120, 46]

lemma dropWhile_eq_self_of_prefix {p : Nat → Bool} {l u : List Nat}
    (hl : l <+: u) (hu : u.dropWhile p = u) : l.dropWhile p = l := by
  cases l with
  | nil => rfl
  | cons a l2 =>
    cases u with
    | nil => simp at hl
    | cons b u2 =>
      rw [List.cons_prefix_cons] at hl
      obtain ⟨rfl, -⟩ := hl
      by_cases hp : p a
      · rw [List.dropWhile_cons_of_pos hp] at hu
        have h1 := congrArg List.length hu
        have h2 : (u2.dropWhile p).length ≤ u2.length :=
          (List.dropWhile_sublist p).length_le
        simp at h1
        omega
      · rw [List.dropWhile_cons_of_neg hp]

lemma stripList_idem (s : List Nat) : stripList (stripList s) = stripList s := by
  unfold stripList
  have h1 : (s.dropWhile isPySpace).dropWhile isPySpace = s.dropWhile isPySpace :=
    List.dropWhile_idempotent _ _
  have h2 : (List.rdropWhile isPySpace (s.dropWhile isPySpace)).dropWhile isPySpace =
      List.rdropWhile isPySpace (s.dropWhile isPySpace) :=
    dropWhile_eq_self_of_prefix (List.rdropWhile_prefix _ _) h1
  rw [h2, List.rdropWhile_idempotent]

lemma stripList_sublist (s : List Nat) : List.Sublist (stripList s) s := by
  unfold stripList List.rdropWhile
  have h1 : List.Sublist ((s.dropWhile isPySpace).reverse.dropWhile isPySpace).reverse
      (s.dropWhile isPySpace).reverse.reverse :=
    (List.dropWhile_sublist isPySpace).reverse
  rw [List.reverse_reverse] at h1
  exact h1.trans (List.dropWhile_sublist isPySpace)

lemma mem_of_mem_stripList {c : Nat} {s : List Nat} (h : c ∈ stripList s) : c ∈ s :=
  (stripList_sublist s).mem h

lemma dropWhile_eq_self_of_head {p : Nat → Bool} {s : List Nat}
    (h : ∀ c ∈ s, p c = false) : s.dropWhile p = s := by
  cases s with
  | nil => rfl
  | cons a l => simp [List.dropWhile_cons, h a (List.mem_cons_self a l)]

lemma stripList_eq_self_of_forall {s : List Nat}
    (h : ∀ c ∈ s, isPySpace c = false) : stripList s = s := by
  unfold stripList List.rdropWhile
  rw [dropWhile_eq_self_of_head h,
    dropWhile_eq_self_of_head (fun c hc => h c (by simpa using hc)),
    List.reverse_reverse]

lemma mem_dropWhile_of_neg {p : Nat → Bool} {c : Nat} {s : List Nat}
    (hc : c ∈ s) (hw : p c = false) : c ∈ s.dropWhile p := by
  rw [show s = s.takeWhile p ++ s.dropWhile p from (List.takeWhile_append_dropWhile p s).symm] at hc
  rcases List.mem_append.mp hc with h | h
  · exact absurd (List.mem_takeWhile_imp h) (by simp [hw])
  · exact h

lemma mem_stripList_of_neg {c : Nat} {s : List Nat}
    (hc : c ∈ s) (hw : isPySpace c = false) : c ∈ stripList s := by
  unfold stripList List.rdropWhile
  have h1 : c ∈ s.dropWhile isPySpace := mem_dropWhile_of_neg hc hw
  have h2 : c ∈ (s.dropWhile isPySpace).reverse.dropWhile isPySpace :=
    mem_dropWhile_of_neg (by simpa using h1) hw
  simpa using h2

lemma stripList_ne_nil_of_mem {c : Nat} {s : List Nat}
    (hc : c ∈ s) (hw : isPySpace c = false) : stripList s ≠ [] := by
  intro hnil
  exact absurd (hnil ▸ mem_stripList_of_neg hc hw) (List.not_mem_nil c)

lemma splitNl_nil : splitNl [] = [[]] := rfl

lemma splitNl_cons (c : Nat) (rest : List Nat) :
    splitNl (c :: rest) =
      if c == 10 then [] :: splitNl rest
      else (c :: (splitNl rest).headD []) :: (splitNl rest).tail := rfl

lemma splitNl_ne_nil (t : List Nat) : splitNl t ≠ [] := by
  cases t with
  | nil => simp [splitNl_nil]
  | cons c rest =>
    rw [splitNl_cons]
    by_cases h : c == 10 <;> simp [h]

lemma mem_splitNl_not_nl {l t : List Nat} (h : l ∈ splitNl t) : (10 : Nat) ∉ l := by
  induction t generalizing l with
  | nil =>
    rw [splitNl_nil] at h
    simp at h
    simp [h]
  | cons c rest ih =>
    rw [splitNl_cons] at h
    by_cases hc : c == 10
    · rw [if_pos hc] at h
      rcases List.mem_cons.mp h with rfl | h2
      · simp
      · exact ih h2
    · rw [if_neg hc] at h
      rcases List.mem_cons.mp h with rfl | h2
      · intro hmem
        rcases List.mem_cons.mp hmem with h10 | h10
        · exact hc (by simp [← h10])
        · cases hh : splitNl rest with
          | nil => exact splitNl_ne_nil rest hh
          | cons a as =>
            refine ih (l := a) (by rw [hh]; exact List.mem_cons_self a as) ?_
            rw [hh] at h10
            simpa using h10
      · exact ih (List.mem_of_mem_tail h2)

lemma splitNl_of_not_mem {l : List Nat} (h : (10 : Nat) ∉ l) : splitNl l = [l] := by
  induction l with
  | nil => rfl
  | cons c rest ih =>
    have hc : ¬ (c == 10) = true := by
      simp only [beq_iff_eq]
      intro heq
      exact h (heq ▸ List.mem_cons_self c rest)
    rw [splitNl_cons, if_neg hc, ih (fun hm => h (List.mem_cons_of_mem c hm))]
    simp

lemma splitNl_append_cons {l : List Nat} (t : List Nat) (h : (10 : Nat) ∉ l) :
    splitNl (l ++ 10 :: t) = l :: splitNl t := by
  induction l with
  | nil => simp [splitNl_cons]
  | cons c rest ih =>
    have hc : ¬ (c == 10) = true := by
      simp only [beq_iff_eq]
      intro heq
      exact h (heq ▸ List.mem_cons_self c rest)
    rw [List.cons_append, splitNl_cons, if_neg hc,
      ih (fun hm => h (List.mem_cons_of_mem c hm))]
    simp

lemma joinNl_cons2 (l l2 : List Nat) (ls : List (List Nat)) :
    joinNl (l :: l2 :: ls) = l ++ 10 :: joinNl (l2 :: ls) := rfl

lemma splitNl_joinNl {L : List (List Nat)} (hL : L ≠ [])
    (h : ∀ l ∈ L, (10 : Nat) ∉ l) : splitNl (joinNl L) = L := by
  induction L with
  | nil => exact absurd rfl hL
  | cons l ls ih =>
    cases ls with
    | nil => exact splitNl_of_not_mem (h l (List.mem_cons_self l []))
    | cons l2 ls2 =>
      rw [joinNl_cons2, splitNl_append_cons _ (h l (List.mem_cons_self l _)),
        ih (List.cons_ne_nil l2 ls2) (fun x hx => h x (List.mem_cons_of_mem l hx))]

lemma mem_linesOf {l t : List Nat} (h : l ∈ linesOf t) :
    l ≠ [] ∧ stripList l = l ∧ (10 : Nat) ∉ l := by
  unfold linesOf at h
  obtain ⟨hmem, hne⟩ := List.mem_filter.mp h
  obtain ⟨l0, hl0, rfl⟩ := List.mem_map.mp hmem
  refine ⟨by simpa using hne, stripList_idem l0, fun hmem10 => ?_⟩
  exact mem_splitNl_not_nl hl0 (mem_of_mem_stripList hmem10)

lemma linesOf_joinNl {L : List (List Nat)}
    (hL : ∀ l ∈ L, l ≠ [] ∧ stripList l = l ∧ (10 : Nat) ∉ l) :
    linesOf (joinNl L) = L := by
  cases L with
  | nil => rfl
  | cons l ls =>
    unfold linesOf
    rw [splitNl_joinNl (List.cons_ne_nil l ls) (fun x hx => (hL x hx).2.2)]
    have hmap : (l :: ls).map stripList = l :: ls := by
      have h1 : (l :: ls).map stripList = (l :: ls).map id :=
        List.map_congr_left (fun a ha => (hL a ha).2.1)
      rw [h1, List.map_id]
    rw [hmap]
    exact List.filter_eq_self.mpr (fun a ha => by simp [(hL a ha).1])

lemma collapse_joinNl {L : List (List Nat)}
    (hL : ∀ l ∈ L, l ≠ [] ∧ stripList l = l ∧ (10 : Nat) ∉ l) :
    collapse (joinNl L) = joinNl L := by
  unfold collapse
  rw [linesOf_joinNl hL]

lemma collapse_collapse (t : List Nat) : collapse (collapse t) = collapse t :=
  collapse_joinNl (fun _ hl => mem_linesOf hl)

lemma collapse_eq_self {t : List Nat} (h10 : (10 : Nat) ∉ t)
    (hstrip : stripList t = t) (hne : t ≠ []) : collapse t = t := by
  unfold collapse linesOf
  rw [splitNl_of_not_mem h10]
  simp only [List.map_cons, List.map_nil, hstrip]
  rw [List.filter_cons]
  simp [hne, joinNl]

lemma truncationNotice_length : truncationNotice.length = 35 := rfl

lemma clean_of_le {t : List Nat} {cap : Nat} (h : (collapse t).length ≤ cap) :
    clean_text_for_llm t cap = collapse t := by
  unfold clean_text_for_llm
  rw [if_neg (by omega)]

lemma clean_of_gt {t : List Nat} {cap : Nat} (h : cap < (collapse t).length) :
    clean_text_for_llm t cap = (collapse t).take cap ++ truncationNotice := by
  unfold clean_text_for_llm
  rw [if_pos h]

lemma foldl_set_length (v : Nat → List Nat) (order : List Nat)
    (init : List (Option (List Nat))) :
    (order.foldl (fun s j => s.set j (some (v j))) init).length = init.length := by
  induction order generalizing init with
  | nil => rfl
  | cons a rest ih => rw [List.foldl_cons, ih, List.length_set]

lemma foldl_set_getElem_not_mem (v : Nat → List Nat) (order : List Nat)
    (init : List (Option (List Nat))) (i : Nat) (h : i ∉ order) :
    (order.foldl (fun s j => s.set j (some (v j))) init)[i]? = init[i]? := by
  induction order generalizing init with
  | nil => rfl
  | cons a rest ih =>
    rw [List.foldl_cons, ih _ (fun hm => h (List.mem_cons_of_mem a hm))]
    exact List.getElem?_set_ne (fun he => h (List.mem_cons.mpr (Or.inl he.symm)))

lemma foldl_set_getElem_mem (v : Nat → List Nat) (order : List Nat)
    (init : List (Option (List Nat))) (i : Nat) (hi : i < init.length)
    (h : i ∈ order) :
    (order.foldl (fun s j => s.set j (some (v j))) init)[i]? = some (some (v i)) := by
  induction order generalizing init with
  | nil => exact absurd h (List.not_mem_nil i)
  | cons a rest ih =>
    rw [List.foldl_cons]
    by_cases hmem : i ∈ rest
    · exact ih _ (by rw [List.length_set]; exact hi) hmem
    · have hia : i = a := by
        rcases List.mem_cons.mp h with h1 | h1
        · exact h1
        · exact absurd h1 hmem
      subst hia
      rw [foldl_set_getElem_not_mem _ _ _ _ hmem]
      exact List.getElem?_set_self hi

lemma chunk_spans_loop_stop {t : List Nat} {cc oc : Nat} {start : Int}
    (h : ¬ start < (t.length : Int)) :
    ∀ fuel, chunk_spans_loop t cc oc fuel start = [] := by
  intro fuel
  cases fuel with
  | zero => rfl
  | succ n =>
    show (if start < (t.length : Int) then _ else []) = []
    rw [if_neg h]

lemma chunk_spans_loop_succ {t : List Nat} {cc oc : Nat} (fuel : Nat) (start : Int)
    (h : start < (t.length : Int)) :
    chunk_spans_loop t cc oc (fuel + 1) start =
      if stripList (pySlice t start (chunkIterEnd t cc start)) == [] then
        chunk_spans_loop t cc oc fuel (chunkNext t cc oc start)
      else (start, chunkIterEnd t cc start) ::
        chunk_spans_loop t cc oc fuel (chunkNext t cc oc start) := by
  show (if start < (t.length : Int) then _ else []) = _
  rw [if_pos h]

lemma pyIdx_of_nonneg_le {len : Nat} {i : Int} (h0 : 0 ≤ i) (hle : i ≤ (len : Int)) :
    (pyIdx len i : Int) = i := by
  unfold pyIdx
  rw [if_neg (by omega)]
  omega

lemma rfindDotSpace_cases (t : List Nat) (a b : Int) :
    rfindDotSpace t a b = -1 ∨
      (pyIdx t.length a : Int) ≤ rfindDotSpace t a b := by
  unfold rfindDotSpace
  cases h : rfindRel ((t.take (pyIdx t.length b)).drop (pyIdx t.length a)) with
  | none => left; rfl
  | some r =>
    right
    change (pyIdx t.length a : Int) ≤ (pyIdx t.length a : Int) + (r : Int)
    omega

lemma chunkIterEnd_lb {t : List Nat} {cc : Nat} {start : Int}
    (h0 : 0 ≤ start) (hlt : start < (t.length : Int)) :
    start + cc - 200 ≤ chunkIterEnd t cc start := by
  unfold chunkIterEnd
  by_cases he : start + (cc : Int) < (t.length : Int)
  · rw [if_pos he]
    by_cases hlp : start < rfindDotSpace t (max (start + (cc : Int) - 200) start) (start + (cc : Int))
    · rw [if_pos hlp]
      have hss0 : (0 : Int) ≤ max (start + (cc : Int) - 200) start := le_trans h0 (le_max_right _ _)
      have hssle : max (start + (cc : Int) - 200) start ≤ (t.length : Int) :=
        max_le (by omega) (by omega)
      rcases rfindDotSpace_cases t (max (start + (cc : Int) - 200) start) (start + (cc : Int)) with
        hcase | hcase
      · rw [hcase] at hlp; omega
      · rw [pyIdx_of_nonneg_le hss0 hssle] at hcase
        have h200 : start + (cc : Int) - 200 ≤ max (start + (cc : Int) - 200) start :=
          le_max_left _ _
        omega
    · rw [if_neg hlp]; omega
  · rw [if_neg he]; omega

lemma chunkIterEnd_gt {t : List Nat} {cc : Nat} {start : Int}
    (h0 : 0 ≤ start) (hlt : start < (t.length : Int)) (hcc : 201 ≤ cc) :
    start < chunkIterEnd t cc start := by
  have h1 : start + cc - 200 ≤ chunkIterEnd t cc start := chunkIterEnd_lb h0 hlt
  omega

lemma chunkNext_bounds {t : List Nat} {cc oc : Nat} {start : Int}
    (h0 : 0 ≤ start) (hlt : start < (t.length : Int)) (hcc : oc + 201 ≤ cc) :
    start + 1 ≤ chunkNext t cc oc start ∧
      chunkNext t cc oc start ≤ chunkIterEnd t cc start := by
  unfold chunkNext
  have hlb : start + cc - 200 ≤ chunkIterEnd t cc start := chunkIterEnd_lb h0 hlt
  by_cases he : chunkIterEnd t cc start < (t.length : Int)
  · rw [if_pos he]; omega
  · rw [if_neg he]; omega

lemma getD_mem_pySlice {t : List Nat} {s e : Int} {p : Nat}
    (h0 : 0 ≤ s) (hsp : s ≤ (p : Int)) (hpe : (p : Int) < e) (hp : p < t.length) :
    t.getD p 0 ∈ pySlice t s e := by
  unfold pySlice
  have ha : pyIdx t.length s = s.toNat := by
    unfold pyIdx
    rw [if_neg (by omega)]
    omega
  have hb : p < pyIdx t.length e := by
    unfold pyIdx
    rw [if_neg (by omega)]
    omega
  have hsp2 : s.toNat ≤ p := by omega
  have hidx : ((t.take (pyIdx t.length e)).drop (pyIdx t.length s))[p - s.toNat]? =
      some (t.getD p 0) := by
    rw [ha, List.getElem?_drop]
    have hb2 : s.toNat + (p - s.toNat) < pyIdx t.length e := by omega
    rw [List.getElem?_take_of_lt hb2]
    have : s.toNat + (p - s.toNat) = p := by omega
    rw [this, List.getElem?_eq_getElem hp]
    simp [List.getD_eq_getElem?_getD, List.getElem?_eq_getElem hp]
  exact List.getElem?_mem hidx

lemma chunk_spans_loop_coverage {t : List Nat} {cc oc : Nat} (hcc : oc + 201 ≤ cc) :
    ∀ (fuel : Nat) (start : Int), 0 ≤ start →
      ((t.length : Int) - start).toNat ≤ fuel →
      ∀ p : Nat, start ≤ (p : Int) → p < t.length →
      isPySpace (t.getD p 0) = false →
      ∃ q ∈ chunk_spans_loop t cc oc fuel start, q.1 ≤ (p : Int) ∧ (p : Int) < q.2 := by
  intro fuel
  induction fuel with
  | zero =>
    intro start h0 hfuel p hsp hp hw
    omega
  | succ n ih =>
    intro start h0 hfuel p hsp hp hw
    have hlt : start < (t.length : Int) := by omega
    rw [chunk_spans_loop_succ n start hlt]
    by_cases hpe : (p : Int) < chunkIterEnd t cc start
    · have hmem : t.getD p 0 ∈ pySlice t start (chunkIterEnd t cc start) :=
        getD_mem_pySlice h0 hsp hpe hp
      have hne : stripList (pySlice t start (chunkIterEnd t cc start)) ≠ [] :=
        stripList_ne_nil_of_mem hmem hw
      rw [beq_eq_false_iff_ne.mpr hne, if_neg Bool.false_ne_true]
      exact ⟨(start, chunkIterEnd t cc start), List.mem_cons_self _ _, hsp, hpe⟩
    · push_neg at hpe
      obtain ⟨hnext1, hnext2⟩ := chunkNext_bounds h0 hlt hcc
      have h0' : 0 ≤ chunkNext t cc oc start := by omega
      have hfuel' : ((t.length : Int) - chunkNext t cc oc start).toNat ≤ n := by omega
      have hsp' : chunkNext t cc oc start ≤ (p : Int) := le_trans hnext2 hpe
      obtain ⟨q, hq, hq1, hq2⟩ := ih (chunkNext t cc oc start) h0' hfuel' p hsp' hp hw
      by_cases hstrip : stripList (pySlice t start (chunkIterEnd t cc start)) = []
      · rw [beq_iff_eq.mpr hstrip, if_pos rfl]
        exact ⟨q, hq, hq1, hq2⟩
      · rw [beq_eq_false_iff_ne.mpr hstrip, if_neg Bool.false_ne_true]
        exact ⟨q, List.mem_cons_of_mem _ hq, hq1, hq2⟩

lemma generate_summary_short (b : Backend) (tf : Nat → Bool) (order : List Nat)
    {text : List Nat} (h : (clean_text_for_llm text).length < 3000) :
    generate_summary b tf order text =
      _generate_single_summary b (clean_text_for_llm text) := by
  unfold generate_summary
  rw [if_pos h]

lemma generate_summary_long (b : Backend) (tf : Nat → Bool) (order : List Nat)
    {text : List Nat} (h : 3000 ≤ (clean_text_for_llm text).length) :
    generate_summary b tf order text =
      _merge_summaries b (chunkSummaries b tf order (chunk_text (clean_text_for_llm text))) := by
  unfold generate_summary
  rw [if_neg (by omega)]

lemma generate_summary_calls_short (b : Backend) (tf : Nat → Bool) (order : List Nat)
    {text : List Nat} (h : (clean_text_for_llm text).length < 3000) :
    generate_summary_calls b tf order text = [LlmCall.single (clean_text_for_llm text)] := by
  unfold generate_summary_calls
  rw [if_pos h]

lemma generate_summary_calls_long (b : Backend) (tf : Nat → Bool) (order : List Nat)
    {text : List Nat} (h : 3000 ≤ (clean_text_for_llm text).length) :
    generate_summary_calls b tf order text =
      (List.range (chunk_text (clean_text_for_llm text)).length).map
        (fun i => LlmCall.chunk i ((chunk_text (clean_text_for_llm text)).getD i [])) ++
        [LlmCall.merge (joinNl (chunkSummaries b tf order (chunk_text (clean_text_for_llm text))))] := by
  unfold generate_summary_calls
  rw [if_neg (by omega)]


lemma tA_length : tA.length = 3000 := by
  rw [tA, List.length_replicate]

lemma tA_ne_nil : tA ≠ [] :=
  List.ne_nil_of_length_pos (by rw [tA_length]; omega)

lemma tA_not_nl : (10 : Nat) ∉ tA := by
  intro h
  rw [tA] at h
  exact absurd (List.eq_of_mem_replicate h) (by decide)

lemma tA_strip : stripList tA = tA :=
  stripList_eq_self_of_forall (fun c hc => by rw [List.eq_of_mem_replicate hc]; rfl)

lemma tA_collapse : collapse tA = tA :=
  collapse_eq_self tA_not_nl tA_strip tA_ne_nil

lemma tA_clean : clean_text_for_llm tA = tA := by
  rw [clean_of_le (by rw [tA_collapse, tA_length]; omega), tA_collapse]

lemma tA_clean_length : 3000 ≤ (clean_text_for_llm tA).length := by
  rw [tA_clean, tA_length]

lemma chunk_text_spans_def (t : List Nat) :
    chunk_text_spans t = chunk_spans_loop t 4000 300 (t.length + 1) 0 := by
  unfold chunk_text_spans CHUNK_SIZE_TOKENS CHUNK_OVERLAP_TOKENS CHARS_PER_TOKEN
  norm_num

lemma chunk_text_def (t : List Nat) :
    chunk_text t = (chunk_text_spans t).map (fun p => stripList (pySlice t p.1 p.2)) := rfl

lemma tA_chunkIterEnd : chunkIterEnd tA 4000 0 = 4000 := by
  unfold chunkIterEnd
  rw [tA_length]
  rw [if_neg (by omega)]
  omega

lemma tA_chunkNext : chunkNext tA 4000 300 0 = 3000 := by
  unfold chunkNext
  rw [tA_chunkIterEnd, tA_length]
  rw [if_neg (by omega)]
  norm_num

lemma tA_pySlice : pySlice tA 0 4000 = tA := by
  unfold pySlice pyIdx
  rw [tA_length]
  rw [if_neg (by omega), if_neg (by omega)]
  rw [show min (Int.toNat 4000) 3000 = 3000 from by omega,
    show min (Int.toNat 0) 3000 = 0 from by omega]
  rw [List.drop_zero, ← tA_length, List.take_length]

lemma tA_spans : chunk_text_spans tA = [(0, 4000)] := by
  rw [chunk_text_spans_def, tA_length]
  rw [chunk_spans_loop_succ 3000 0 (by rw [tA_length]; omega)]
  rw [tA_chunkIterEnd, tA_pySlice, tA_chunkNext]
  rw [tA_strip, beq_eq_false_iff_ne.mpr tA_ne_nil, if_neg Bool.false_ne_true]
  rw [chunk_spans_loop_stop (by rw [tA_length]; omega)]

lemma tA_chunk_text : chunk_text tA = [tA] := by
  rw [chunk_text_def, tA_spans]
  simp only [List.map_cons, List.map_nil]
  rw [tA_pySlice, tA_strip]


/-- C1: generate_summary first normalizes its input; when the normalized
length is below 3000 it takes the single-pass path — the result is exactly the
single-pass call on the normalized text, and the only backend request is that
single call, so no chunks are ever produced — and when the normalized length
is at or above 3000 it takes the split, fan-out, merge path.  The boundary is
deterministic: a normalized length of exactly 3000 satisfies the second case
(the source test is a strict less-than). -/
theorem c1_path_selection (b : Backend) (tf : Nat → Bool) (order : List Nat)
    (text : List Nat) :
    ((clean_text_for_llm text).length < 3000 →
      generate_summary b tf order text =
        _generate_single_summary b (clean_text_for_llm text) ∧
      generate_summary_calls b tf order text =
        [LlmCall.single (clean_text_for_llm text)]) ∧
    (3000 ≤ (clean_text_for_llm text).length →
      generate_summary b tf order text =
        _merge_summaries b (chunkSummaries b tf order (chunk_text (clean_text_for_llm text))) ∧
      generate_summary_calls b tf order text =
        (List.range (chunk_text (clean_text_for_llm text)).length).map
          (fun i => LlmCall.chunk i ((chunk_text (clean_text_for_llm text)).getD i [])) ++
          [LlmCall.merge (joinNl (chunkSummaries b tf order
            (chunk_text (clean_text_for_llm text))))]) := by
  constructor
  · intro h
    exact ⟨generate_summary_short b tf order h, generate_summary_calls_short b tf order h⟩
  · intro h
    exact ⟨generate_summary_long b tf order h, generate_summary_calls_long b tf order h⟩

/-- Witness for C1: a 2-character text takes the single-pass path, and the
3000-character text tA, exactly at the threshold, takes the chunked path. -/
theorem c1_path_selection_witness :
    ((clean_text_for_llm [104, 105]).length < 3000 ∧
      generate_summary bOk tfNone [] [104, 105] =
        _generate_single_summary bOk (clean_text_for_llm [104, 105])) ∧
    (3000 ≤ (clean_text_for_llm tA).length ∧
      generate_summary bOk tfNone [] tA =
        _merge_summaries bOk (chunkSummaries bOk tfNone [] (chunk_text (clean_text_for_llm tA)))) :=
  ⟨⟨by decide, ((c1_path_selection bOk tfNone [] [104, 105]).1 (by decide)).1⟩,
   ⟨tA_clean_length, ((c1_path_selection bOk tfNone [] tA).2 tA_clean_length).1⟩⟩

lemma mem_infix_joinNl {x : List Nat} {L : List (List Nat)} (h : x ∈ L) :
    x <:+: joinNl L := by
  induction L with
  | nil => simp at h
  | cons l ls ih =>
    rcases List.mem_cons.mp h with rfl | h2
    · cases ls with
      | nil => exact List.infix_refl x
      | cons l2 ls2 =>
        rw [joinNl_cons2]
        exact (List.prefix_append x (10 :: joinNl (l2 :: ls2))).isInfix
    · cases ls with
      | nil => simp at h2
      | cons l2 ls2 =>
        rw [joinNl_cons2]
        refine (ih h2).trans ?_
        exact ((List.suffix_cons 10 (joinNl (l2 :: ls2))).trans
          (List.suffix_append l (10 :: joinNl (l2 :: ls2)))).isInfix

lemma fillSlots_length (b : Backend) (tf : Nat → Bool) (chunks : List (List Nat))
    (order : List Nat) : (fillSlots b tf chunks order).length = chunks.length := by
  unfold fillSlots
  rw [foldl_set_length, List.length_replicate]

lemma fillSlots_getElem (b : Backend) (tf : Nat → Bool) (chunks : List (List Nat))
    (order : List Nat) (i : Nat) (hi : i < chunks.length) (hmem : i ∈ order) :
    (fillSlots b tf chunks order)[i]? = some (some (slotValue b tf chunks i)) := by
  unfold fillSlots
  exact foldl_set_getElem_mem _ _ _ _ (by rw [List.length_replicate]; exact hi) hmem

lemma parallel_getElem (b : Backend) (tf : Nat → Bool) (chunks : List (List Nat))
    (order : List Nat) (i : Nat) (hi : i < chunks.length) (hmem : i ∈ order) :
    (_parallel_chunk_summarization b tf chunks order)[i]? =
      some (slotValue b tf chunks i) := by
  unfold _parallel_chunk_summarization
  rw [List.getElem?_map, fillSlots_getElem b tf chunks order i hi hmem]
  rfl

/-- C4: the fan-out scheduler returns exactly one summary per chunk: the slot
list has the input length, every slot is populated (never a gap) for any
completion order that delivers every index, slot i holds the summary of
chunks[i] — the per-index task result, or the task-failure sentinel — never
the summary of another chunk, independently of the completion order; and
stage 1 runs sequentially for at most 2 chunks and through the scheduler for
more. -/
theorem c4_fanout_scheduler (b : Backend) (tf : Nat → Bool) (chunks : List (List Nat))
    (order : List Nat) (hcov : ∀ i, i < chunks.length → i ∈ order) :
    (_parallel_chunk_summarization b tf chunks order).length = chunks.length ∧
    (∀ i, i < chunks.length →
      (fillSlots b tf chunks order)[i]? = some (some (slotValue b tf chunks i))) ∧
    (∀ i, i < chunks.length →
      (_parallel_chunk_summarization b tf chunks order)[i]? =
        some (slotValue b tf chunks i)) ∧
    (∀ i, i < chunks.length → tf i = false →
      slotValue b tf chunks i = summarize_chunk_sync b (chunks.getD i []) i) ∧
    (chunks.length ≤ 2 →
      chunkSummaries b tf order chunks =
        chunks.mapIdx (fun i c => summarize_chunk_sync b c i)) ∧
    (2 < chunks.length →
      chunkSummaries b tf order chunks = _parallel_chunk_summarization b tf chunks order) := by
  refine ⟨?_, ?_, ?_, ?_, ?_, ?_⟩
  · unfold _parallel_chunk_summarization
    rw [List.length_map, fillSlots_length]
  · exact fun i hi => fillSlots_getElem b tf chunks order i hi (hcov i hi)
  · exact fun i hi => parallel_getElem b tf chunks order i hi (hcov i hi)
  · intro i hi htf
    unfold slotValue
    rw [htf]
    rfl
  · intro h
    unfold chunkSummaries
    rw [if_pos h]
  · intro h
    unfold chunkSummaries
    rw [if_neg (by omega)]

/-- Witness for C4: three chunks delivered in the completion order 2, 0, 1
still fill slots in index order. -/
theorem c4_fanout_scheduler_witness :
    (∀ i, i < ([[97], [98], [99]] : List (List Nat)).length → i ∈ [2, 0, 1]) ∧
    (_parallel_chunk_summarization bOk tfNone [[97], [98], [99]] [2, 0, 1]).length =
      ([[97], [98], [99]] : List (List Nat)).length :=
  ⟨by decide, (c4_fanout_scheduler bOk tfNone [[97], [98], [99]] [2, 0, 1] (by decide)).1⟩


/-- C6 as amended: on any backend error or timeout summarize_chunk_sync
returns the chunk-failure sentinel naming chunk index i+1 and never raises; a
task-level failure in the scheduler is caught and stored as a sentinel of the
same bullet-and-index shape but with different wording (the short task
sentinel, not the processing-failed sentinel of summarize_chunk_sync); both
sentinels start with the bullet-Chunk prefix followed by the decimal index;
and every slot value, sentinel or genuine, appears verbatim in the joined
merge input, so one chunk failure never removes another chunk from the merge
input. -/
theorem c6_chunk_failure_containment (b : Backend) (tf : Nat → Bool)
    (chunks : List (List Nat)) (order : List Nat)
    (hcov : ∀ i, i < chunks.length → i ∈ order) (i : Nat) (hi : i < chunks.length) :
    (b (LlmCall.chunk i (chunks.getD i [])) = LlmResult.timeout →
      summarize_chunk_sync b (chunks.getD i []) i = chunkFailSentinel i timeoutWord) ∧
    (∀ m, b (LlmCall.chunk i (chunks.getD i [])) = LlmResult.fail m →
      summarize_chunk_sync b (chunks.getD i []) i = chunkFailSentinel i m) ∧
    (tf i = true →
      (_parallel_chunk_summarization b tf chunks order)[i]? = some (taskSentinel i)) ∧
    (chunkFailSentinel i timeoutWord =
      bulletChunkPrefix ++ natDecimal (i + 1) ++ processingFailedInfix ++
        timeoutWord.take 50 ++ [93] ∧
     taskSentinel i = bulletChunkPrefix ++ natDecimal (i + 1) ++ failedSuffix) ∧
    (∀ j, j < chunks.length →
      slotValue b tf chunks j <:+:
        joinNl (_parallel_chunk_summarization b tf chunks order)) := by
  refine ⟨?_, ?_, ?_, ⟨rfl, rfl⟩, ?_⟩
  · intro ht
    unfold summarize_chunk_sync
    rw [ht]
  · intro m hm
    unfold summarize_chunk_sync
    rw [hm]
  · intro htf
    rw [parallel_getElem b tf chunks order i hi (hcov i hi)]
    unfold slotValue
    rw [htf]
    rfl
  · intro j hj
    have hm : slotValue b tf chunks j ∈ _parallel_chunk_summarization b tf chunks order :=
      List.getElem?_mem (parallel_getElem b tf chunks order j hj (hcov j hj))
    exact mem_infix_joinNl hm

/-- Witness for C6: with one chunk whose task raises, the slot holds the task
sentinel, which appears verbatim in the merge input. -/
theorem c6_chunk_failure_containment_witness :
    (∀ i, i < ([[120]] : List (List Nat)).length → i ∈ [0]) ∧
    (_parallel_chunk_summarization bBoom tfAll [[120]] [0])[0]? = some (taskSentinel 0) :=
  ⟨by decide,
   (c6_chunk_failure_containment bBoom tfAll [[120]] [0] (by decide) 0 (by decide)).2.2.1 rfl⟩

/-- Counterexample for C6 as stated: the scheduler converts a task-level
failure into the short task sentinel, which differs from the sentinel
summarize_chunk_sync produces for the same chunk and backend error, so it is
not the same sentinel representation. -/
theorem c6_counterexample :
    (_parallel_chunk_summarization bBoom tfAll [[120]] [0])[0]? = some (taskSentinel 0) ∧
    summarize_chunk_sync bBoom [120] 0 = chunkFailSentinel 0 [98, 111, 111, 109] ∧
    taskSentinel 0 ≠ chunkFailSentinel 0 [98, 111, 111, 109] := by
  refine ⟨?_, by decide, by decide⟩
  decide

lemma process_text_of_raised {b : Backend} {tf : Nat → Bool} {order : List Nat}
    {text m : List Nat} (hg : generate_summary b tf order text = PyResult.raised m) :
    process_text b tf order text = ([updSummarizing, updError m], PyResult.raised m) := by
  unfold process_text
  rw [hg]

lemma process_text_of_success {b : Backend} {tf : Nat → Bool} {order : List Nat}
    {text s : List Nat} (hg : generate_summary b tf order text = PyResult.returned s)
    (hs : stripList s ≠ []) :
    process_text b tf order text = ([updSummarizing, updComplete], PyResult.returned s) := by
  unfold process_text
  rw [hg]
  have h1 : s.isEmpty = false := by
    cases s with
    | nil => exact absurd rfl hs
    | cons a l => rfl
  have h2 : (stripList s).isEmpty = false := by
    cases h : stripList s with
    | nil => exact absurd h hs
    | cons a l => rfl
  simp [h1, h2]


/-- C5: the merge stage joins the segment summaries in index order into one
newline-joined block; on a request timeout it returns, instead of raising, the
block prefixed with the Key Points header — a nonempty string in which every
chunk summary appears verbatim — and the pipeline then still finishes with
status complete; any non-timeout backend error raises the prefixed
summary-merge failure, fatal to the stage. -/
theorem c5_merge_two_tier (b : Backend) (tf : Nat → Bool) (order : List Nat)
    (text : List Nat) (summaries : List (List Nat)) :
    (b (LlmCall.merge (joinNl summaries)) = LlmResult.timeout →
      _merge_summaries b summaries =
        PyResult.returned (keyPointsHeader ++ joinNl summaries) ∧
      keyPointsHeader ++ joinNl summaries ≠ [] ∧
      ∀ s ∈ summaries, s <:+: keyPointsHeader ++ joinNl summaries) ∧
    (∀ m, b (LlmCall.merge (joinNl summaries)) = LlmResult.fail m →
      _merge_summaries b summaries = PyResult.raised (mergeFailPrefix ++ m)) ∧
    (3000 ≤ (clean_text_for_llm text).length →
      b (LlmCall.merge (joinNl (chunkSummaries b tf order
        (chunk_text (clean_text_for_llm text))))) = LlmResult.timeout →
      process_text b tf order text =
        ([updSummarizing, updComplete],
          PyResult.returned (keyPointsHeader ++
            joinNl (chunkSummaries b tf order (chunk_text (clean_text_for_llm text)))))) := by
  refine ⟨?_, ?_, ?_⟩
  · intro ht
    refine ⟨by unfold _merge_summaries; rw [ht], by simp [keyPointsHeader], ?_⟩
    intro s hsm
    refine (mem_infix_joinNl hsm).trans ?_
    exact (List.suffix_append keyPointsHeader (joinNl summaries)).isInfix
  · intro m hm
    unfold _merge_summaries
    rw [hm]
  · intro hlen ht
    have hg : generate_summary b tf order text =
        PyResult.returned (keyPointsHeader ++
          joinNl (chunkSummaries b tf order (chunk_text (clean_text_for_llm text)))) := by
      rw [generate_summary_long b tf order hlen]
      unfold _merge_summaries
      rw [ht]
    refine process_text_of_success hg ?_
    exact stripList_ne_nil_of_mem
      (List.mem_append_left _ (show (75 : Nat) ∈ keyPointsHeader from by decide))
      (show isPySpace 75 = false from by decide)

/-- Witness for C5: on the 3000-character text tA with a backend that times
out on the merge request, the pipeline still reaches status complete. -/
theorem c5_merge_two_tier_witness :
    3000 ≤ (clean_text_for_llm tA).length ∧
    (process_text bMergeTimeout tfNone [] tA).1 = [updSummarizing, updComplete] :=
  ⟨tA_clean_length,
   by rw [((c5_merge_two_tier bMergeTimeout tfNone [] tA []).2.2 tA_clean_length rfl)]⟩

/-- C10: on the single-pass path (normalized length below 3000) a backend
timeout raises the summary-generation timeout failure, any other backend error
raises the prefixed summary-generation failure, and a successful result can
only come from a successful backend response: there is no degraded fallback on
this path, unlike the merge stage. -/
theorem c10_single_pass_no_fallback (b : Backend) (tf : Nat → Bool) (order : List Nat)
    (text : List Nat) (h : (clean_text_for_llm text).length < 3000) :
    (b (LlmCall.single (clean_text_for_llm text)) = LlmResult.timeout →
      generate_summary b tf order text = PyResult.raised singleTimeoutMsg) ∧
    (∀ m, b (LlmCall.single (clean_text_for_llm text)) = LlmResult.fail m →
      generate_summary b tf order text = PyResult.raised (singleFailPrefix ++ m)) ∧
    (∀ r, generate_summary b tf order text = PyResult.returned r →
      b (LlmCall.single (clean_text_for_llm text)) = LlmResult.ok r) := by
  rw [generate_summary_short b tf order h]
  unfold _generate_single_summary
  refine ⟨fun ht => by rw [ht], fun m hm => by rw [hm], fun r hr => ?_⟩
  cases hb : b (LlmCall.single (clean_text_for_llm text)) with
  | ok s => rw [hb] at hr; simpa using hr
  | timeout => rw [hb] at hr; simp at hr
  | fail m => rw [hb] at hr; simp at hr

/-- Witness for C10: on a short text with a backend that times out,
generate_summary raises the timeout failure. -/
theorem c10_single_pass_no_fallback_witness :
    (clean_text_for_llm [104, 105]).length < 3000 ∧
    generate_summary bTimeoutAll tfNone [] [104, 105] = PyResult.raised singleTimeoutMsg :=
  ⟨by decide,
   (c10_single_pass_no_fallback bTimeoutAll tfNone [] [104, 105] (by decide)).1 rfl⟩

/-- C7 as amended: the collapsed text is a newline-join of nonempty stripped
newline-free lines (no blank lines); when it fits within the cap the
normalizer returns it unchanged, with length at most the cap; when it exceeds
the cap the normalizer returns its first cap characters followed by the
35-character truncation notice, for a total length of exactly cap + 35 — which
exceeds the cap, and whose double newline separator constitutes a blank
line — so the overall bound is cap + 35, not cap; the function is total and
the empty input yields the empty string. -/
theorem c7_normalizer_shape (t : List Nat) (cap : Nat) :
    (∃ L, collapse t = joinNl L ∧
      ∀ l ∈ L, l ≠ [] ∧ stripList l = l ∧ (10 : Nat) ∉ l) ∧
    ((collapse t).length ≤ cap →
      clean_text_for_llm t cap = collapse t ∧
      (clean_text_for_llm t cap).length ≤ cap) ∧
    (cap < (collapse t).length →
      clean_text_for_llm t cap = (collapse t).take cap ++ truncationNotice ∧
      (clean_text_for_llm t cap).length = cap + 35 ∧
      [10, 10] <:+: clean_text_for_llm t cap) ∧
    (clean_text_for_llm t cap).length ≤ cap + 35 ∧
    (t = [] → clean_text_for_llm t cap = []) := by
  have hnil : clean_text_for_llm ([] : List Nat) cap = [] := by
    have h0 : collapse ([] : List Nat) = [] := rfl
    rw [clean_of_le (by rw [h0]; simp)]
    exact h0
  have hgt : cap < (collapse t).length →
      clean_text_for_llm t cap = (collapse t).take cap ++ truncationNotice ∧
      (clean_text_for_llm t cap).length = cap + 35 ∧
      [10, 10] <:+: clean_text_for_llm t cap := by
    intro h
    have he := clean_of_gt h
    refine ⟨he, ?_, ?_⟩
    · rw [he, List.length_append, List.length_take, truncationNotice_length]
      omega
    · rw [he]
      refine List.IsInfix.trans ?_ (List.suffix_append _ truncationNotice).isInfix
      exact (List.take_prefix 2 truncationNotice).isInfix
  refine ⟨⟨linesOf t, rfl, fun l hl => mem_linesOf hl⟩, ?_, hgt, ?_, fun h => h ▸ hnil⟩
  · intro h
    refine ⟨clean_of_le h, ?_⟩
    rw [clean_of_le h]
    exact h
  · by_cases h : cap < (collapse t).length
    · rw [(hgt h).2.1]
    · rw [clean_of_le (by omega)]
      omega

/-- Witness for C7: both branches exercised — a small text that fits the cap
and an 11-character text truncated at cap 10, whose result has length 45. -/
theorem c7_normalizer_shape_witness :
    ((collapse [32, 104, 10, 10, 105]).length ≤ 24000 ∧
      clean_text_for_llm [32, 104, 10, 10, 105] = collapse [32, 104, 10, 10, 105]) ∧
    (10 < (collapse (List.replicate 11 97)).length ∧
      (clean_text_for_llm (List.replicate 11 97) 10).length = 10 + 35) :=
  ⟨⟨by decide, ((c7_normalizer_shape [32, 104, 10, 10, 105] 24000).2.1 (by decide)).1⟩,
   ⟨by decide, ((c7_normalizer_shape (List.replicate 11 97) 10).2.2.1 (by decide)).2.1⟩⟩

/-- Counterexample for C7 as stated: at cap 10 the normalizer maps eleven a
characters to a 45-character string (the cap plus the 35-character truncation
notice), so the advertised length bound of at most the cap fails, and the
result contains an empty line (the notice separator), so the advertised
no-blank-lines invariant fails as well. -/
theorem c7_counterexample :
    ¬ ((clean_text_for_llm (List.replicate 11 97) 10).length ≤ 10) ∧
    (clean_text_for_llm (List.replicate 11 97) 10).length = 45 ∧
    [] ∈ splitNl (clean_text_for_llm (List.replicate 11 97) 10) := by
  refine ⟨by decide, by decide, by decide⟩

/-- C8 as amended: the normalizer is idempotent on every input whose collapsed
text fits within the cap — in particular on every normalizer output that was
not truncated.  (Truncated outputs are not fixed points, see the
counterexample.) -/
theorem c8_idempotent_unless_truncated (t : List Nat) (cap : Nat)
    (h : (collapse t).length ≤ cap) :
    clean_text_for_llm (clean_text_for_llm t cap) cap = clean_text_for_llm t cap := by
  rw [clean_of_le h]
  rw [clean_of_le (by rw [collapse_collapse]; exact h), collapse_collapse]

/-- Witness for C8: renormalizing the normalized form of a messy small text is
a no-op. -/
theorem c8_idempotent_unless_truncated_witness :
    (collapse [32, 104, 10, 10, 105]).length ≤ 24000 ∧
    clean_text_for_llm (clean_text_for_llm [32, 104, 10, 10, 105]) =
      clean_text_for_llm [32, 104, 10, 10, 105] :=
  ⟨by decide, c8_idempotent_unless_truncated [32, 104, 10, 10, 105] 24000 (by decide)⟩

lemma dropWhile_cons_eq_self {p : Nat → Bool} {c : Nat} {s : List Nat}
    (hc : p c = false) : (c :: s).dropWhile p = c :: s :=
  List.dropWhile_cons_of_neg (by simp [hc])

lemma rdropWhile_eq_self_of_forall {p : Nat → Bool} {s : List Nat}
    (h : ∀ c ∈ s, p c = false) : List.rdropWhile p s = s := by
  unfold List.rdropWhile
  rw [dropWhile_eq_self_of_head (fun c hc => h c (by simpa using hc)),
    List.reverse_reverse]


lemma truncationNotice_split : truncationNotice = 10 :: 10 :: notice33 := rfl


lemma t8_cons : t8 = 97 :: (List.replicate 23998 97 ++ [32, 98, 98]) := by
  rw [t8, show (23999 : Nat) = 23998 + 1 from rfl, List.replicate_succ, List.cons_append]

lemma t8_not_nl : (10 : Nat) ∉ t8 := by
  intro h
  rw [t8] at h
  rcases List.mem_append.mp h with h1 | h1
  · exact absurd (List.eq_of_mem_replicate h1) (by decide)
  · exact absurd h1 (by decide)

lemma t8_length : t8.length = 24002 := by
  rw [t8, List.length_append, List.length_replicate]
  rfl

lemma t8_strip : stripList t8 = t8 := by
  unfold stripList
  rw [t8_cons, dropWhile_cons_eq_self (by decide), ← t8_cons]
  rw [show t8 = (List.replicate 23999 97 ++ [32, 98]) ++ [98] from by
    rw [t8, List.append_assoc]
    exact congrArg (List.replicate 23999 97 ++ ·) (by decide)]
  rw [List.rdropWhile_concat_neg isPySpace _ 98 (by decide)]

lemma t8_collapse : collapse t8 = t8 :=
  collapse_eq_self t8_not_nl t8_strip
    (by rw [t8_cons]; exact List.cons_ne_nil _ _)

lemma t8_clean : clean_text_for_llm t8 =
    (List.replicate 23999 97 ++ [32]) ++ truncationNotice := by
  rw [clean_of_gt (by rw [t8_collapse, t8_length]; omega), t8_collapse]
  rw [t8, List.take_append_eq_append_take, List.length_replicate, List.take_replicate]
  rw [show min 24000 23999 = 23999 from by omega]
  rw [show (24000 - 23999 : Nat) = 1 from rfl]
  rw [show ([32, 98, 98] : List Nat).take 1 = [32] from rfl]

lemma repl32_cons :
    List.replicate 23999 97 ++ [32] = 97 :: (List.replicate 23998 97 ++ [32]) := by
  rw [show (23999 : Nat) = 23998 + 1 from rfl, List.replicate_succ, List.cons_append]

lemma replicate97_strip_space :
    stripList (List.replicate 23999 97 ++ [32]) = List.replicate 23999 97 := by
  unfold stripList
  rw [repl32_cons, dropWhile_cons_eq_self (by decide), ← repl32_cons]
  rw [List.rdropWhile_concat_pos isPySpace _ 32 (by decide)]
  exact rdropWhile_eq_self_of_forall
    (fun c hc => by rw [List.eq_of_mem_replicate hc]; rfl)

lemma t8_clean_collapse : collapse (clean_text_for_llm t8) =
    List.replicate 23999 97 ++ 10 :: notice33 := by
  rw [t8_clean, truncationNotice_split]
  unfold collapse linesOf
  rw [splitNl_append_cons _ (show (10 : Nat) ∉ List.replicate 23999 97 ++ [32] from by
    intro hm
    rcases List.mem_append.mp hm with h1 | h1
    · exact absurd (List.eq_of_mem_replicate h1) (by decide)
    · exact absurd h1 (by decide))]
  rw [splitNl_cons, if_pos (show (((10 : Nat) == 10) = true) from rfl)]
  rw [splitNl_of_not_mem (show (10 : Nat) ∉ notice33 from by decide)]
  rw [List.map_cons, List.map_cons, List.map_cons, List.map_nil]
  rw [replicate97_strip_space, show stripList [] = [] from rfl,
    show stripList notice33 = notice33 from by decide]
  rw [List.filter_cons, List.filter_cons, List.filter_cons, List.filter_nil]
  rw [if_pos (show (!(List.replicate 23999 97).isEmpty) = true from rfl)]
  rw [if_neg (show ¬ ((!(List.isEmpty ([] : List Nat))) = true) from by decide)]
  rw [if_pos (show (!notice33.isEmpty) = true from rfl)]
  rw [joinNl_cons2]
  rw [show joinNl [notice33] = notice33 from rfl]

lemma chunkIterEnd_of_rfind_le {t : List Nat} {cc : Nat} {start : Int}
    (h : start + cc < (t.length : Int) →
      rfindDotSpace t (max (start + cc - 200) start) (start + cc) ≤ start) :
    chunkIterEnd t cc start = start + cc := by
  unfold chunkIterEnd
  by_cases he : start + (cc : Int) < (t.length : Int)
  · rw [if_pos he, if_neg (by have := h he; omega)]
  · rw [if_neg he]

lemma chunkNext_of_lt {t : List Nat} {cc oc : Nat} {start : Int}
    (he : chunkIterEnd t cc start < (t.length : Int)) :
    chunkNext t cc oc start = chunkIterEnd t cc start - oc := by
  unfold chunkNext
  rw [if_pos he]

lemma chunkNext_of_ge {t : List Nat} {cc oc : Nat} {start : Int}
    (he : ¬ chunkIterEnd t cc start < (t.length : Int)) :
    chunkNext t cc oc start = (t.length : Int) := by
  unfold chunkNext
  rw [if_neg he]

lemma rdropWhile_append_replicate (p : Nat → Bool) (l : List Nat) (n c : Nat)
    (hc : p c = true) :
    List.rdropWhile p (l ++ List.replicate n c) = List.rdropWhile p l := by
  induction n with
  | zero => rw [List.replicate_zero, List.append_nil]
  | succ m ih =>
    rw [List.replicate_succ' m c, ← List.append_assoc,
      List.rdropWhile_concat_pos p _ c hc, ih]

lemma stripList_replicate_space (n : Nat) : stripList (List.replicate n 32) = [] := by
  unfold stripList
  rw [List.dropWhile_replicate, if_pos (show isPySpace 32 = true from rfl)]
  rfl

lemma t8_clean_clean : clean_text_for_llm (clean_text_for_llm t8) =
    (List.replicate 23999 97 ++ [10]) ++ truncationNotice := by
  have hlen : 24000 < (collapse (clean_text_for_llm t8)).length := by
    rw [t8_clean_collapse, List.length_append, List.length_replicate]
    decide
  rw [clean_of_gt hlen, t8_clean_collapse]
  rw [List.take_append_eq_append_take, List.length_replicate, List.take_replicate]
  rw [show min 24000 23999 = 23999 from by omega]
  rw [show (24000 - 23999 : Nat) = 1 from rfl]
  rw [show (10 :: notice33).take 1 = [10] from rfl]

/-- Counterexample for C8 as stated: the output of the normalizer on t8 is a
truncated string ending in a space before the truncation notice; normalizing
it again strips that space, so the second pass cuts one character further and
the results differ at position 23999 (a newline instead of a space).
Renormalizing a normalizer output is therefore not always a no-op. -/
theorem c8_counterexample :
    clean_text_for_llm (clean_text_for_llm t8) ≠ clean_text_for_llm t8 := by
  rw [t8_clean_clean, t8_clean]
  intro h
  rw [List.append_assoc, List.append_assoc] at h
  have h2 := List.append_cancel_left h
  exact absurd h2 (by decide)


lemma g_length : gapText.length = 9002 := by
  rw [gapText, List.length_cons, List.length_append, List.length_replicate]
  rfl

lemma g_concat : gapText = (97 :: List.replicate 9000 32) ++ [98] := by
  rw [gapText, List.cons_append]

lemma g_not_nl : (10 : Nat) ∉ gapText := by
  intro h
  rw [gapText] at h
  rcases List.mem_cons.mp h with h1 | h1
  · exact absurd h1 (by decide)
  · rcases List.mem_append.mp h1 with h2 | h2
    · exact absurd (List.eq_of_mem_replicate h2) (by decide)
    · exact absurd h2 (by decide)

lemma g_strip : stripList gapText = gapText := by
  unfold stripList
  rw [gapText, dropWhile_cons_eq_self (by decide), ← gapText]
  rw [g_concat, List.rdropWhile_concat_neg isPySpace _ 98 (by decide)]

lemma g_collapse : collapse gapText = gapText :=
  collapse_eq_self g_not_nl g_strip (by rw [gapText]; exact List.cons_ne_nil _ _)

lemma g_clean : clean_text_for_llm gapText = gapText := by
  rw [clean_of_le (by rw [g_collapse, g_length]; omega), g_collapse]

lemma g_take_small (k : Nat) (hk : k ≤ 9000) :
    gapText.take (k + 1) = 97 :: List.replicate k 32 := by
  rw [gapText, List.take_succ_cons, List.take_append_eq_append_take,
    List.length_replicate, List.take_replicate]
  rw [show min k 9000 = k from by omega, show k - 9000 = 0 from by omega,
    List.take_zero, List.append_nil]

lemma drop_cons_repl (j m : Nat) :
    (97 :: List.replicate m 32).drop (j + 1) = List.replicate (m - j) 32 := by
  rw [List.drop_succ_cons, List.drop_replicate]

lemma rfindRel_spaces : rfindRel (List.replicate 200 32) = none := by decide

lemma g_py0 : pyIdx gapText.length 0 = 0 := by
  rw [g_length]
  unfold pyIdx
  rw [if_neg (by omega)]
  omega

lemma g_py3800 : pyIdx gapText.length 3800 = 3800 := by
  rw [g_length]
  unfold pyIdx
  rw [if_neg (by omega)]
  omega

lemma g_py4000 : pyIdx gapText.length 4000 = 4000 := by
  rw [g_length]
  unfold pyIdx
  rw [if_neg (by omega)]
  omega

lemma g_py3700 : pyIdx gapText.length 3700 = 3700 := by
  rw [g_length]
  unfold pyIdx
  rw [if_neg (by omega)]
  omega

lemma g_py7500 : pyIdx gapText.length 7500 = 7500 := by
  rw [g_length]
  unfold pyIdx
  rw [if_neg (by omega)]
  omega

lemma g_py7700 : pyIdx gapText.length 7700 = 7700 := by
  rw [g_length]
  unfold pyIdx
  rw [if_neg (by omega)]
  omega

lemma g_py7400 : pyIdx gapText.length 7400 = 7400 := by
  rw [g_length]
  unfold pyIdx
  rw [if_neg (by omega)]
  omega

lemma g_py11400 : pyIdx gapText.length 11400 = 9002 := by
  rw [g_length]
  unfold pyIdx
  rw [if_neg (by omega)]
  omega

lemma g_rfindA : rfindDotSpace gapText 3800 4000 = -1 := by
  unfold rfindDotSpace
  rw [g_py4000, g_py3800]
  rw [show gapText.take 4000 = 97 :: List.replicate 3999 32 from by
    rw [show (4000 : Nat) = 3999 + 1 from rfl]
    exact g_take_small 3999 (by omega)]
  rw [show (3800 : Nat) = 3799 + 1 from rfl, drop_cons_repl]
  rw [show (3999 - 3799 : Nat) = 200 from rfl, rfindRel_spaces]

lemma g_rfindB : rfindDotSpace gapText 7500 7700 = -1 := by
  unfold rfindDotSpace
  rw [g_py7700, g_py7500]
  rw [show gapText.take 7700 = 97 :: List.replicate 7699 32 from by
    rw [show (7700 : Nat) = 7699 + 1 from rfl]
    exact g_take_small 7699 (by omega)]
  rw [show (7500 : Nat) = 7499 + 1 from rfl, drop_cons_repl]
  rw [show (7699 - 7499 : Nat) = 200 from rfl, rfindRel_spaces]

lemma g_e1 : chunkIterEnd gapText 4000 0 = 4000 := by
  have h : chunkIterEnd gapText 4000 0 = 0 + (4000 : Nat) := by
    refine chunkIterEnd_of_rfind_le (fun _ => ?_)
    rw [show max ((0 : Int) + (4000 : Nat) - 200) 0 = 3800 from by omega,
      show (0 : Int) + ((4000 : Nat) : Int) = 3800 + 200 from by omega]
    rw [show ((3800 : Int) + 200) = 4000 from by omega, g_rfindA]
    omega
  rw [h]
  omega

lemma g_e2 : chunkIterEnd gapText 4000 3700 = 7700 := by
  have h : chunkIterEnd gapText 4000 3700 = 3700 + (4000 : Nat) := by
    refine chunkIterEnd_of_rfind_le (fun _ => ?_)
    rw [show max ((3700 : Int) + (4000 : Nat) - 200) 3700 = 7500 from by omega,
      show (3700 : Int) + ((4000 : Nat) : Int) = 7700 from by omega]
    rw [g_rfindB]
    omega
  rw [h]
  omega

lemma g_e3 : chunkIterEnd gapText 4000 7400 = 11400 := by
  have h : chunkIterEnd gapText 4000 7400 = 7400 + (4000 : Nat) := by
    refine chunkIterEnd_of_rfind_le (fun he => ?_)
    rw [g_length] at he
    omega
  rw [h]
  omega

lemma g_next1 : chunkNext gapText 4000 300 0 = 3700 := by
  rw [chunkNext_of_lt (by rw [g_e1, g_length]; omega), g_e1]
  omega

lemma g_next2 : chunkNext gapText 4000 300 3700 = 7400 := by
  rw [chunkNext_of_lt (by rw [g_e2, g_length]; omega), g_e2]
  omega

lemma g_next3 : chunkNext gapText 4000 300 7400 = 9002 := by
  rw [chunkNext_of_ge (by rw [g_e3, g_length]; omega), g_length]
  omega

lemma g_s1 : pySlice gapText 0 4000 = 97 :: List.replicate 3999 32 := by
  unfold pySlice
  rw [g_py4000, g_py0, List.drop_zero]
  rw [show (4000 : Nat) = 3999 + 1 from rfl]
  exact g_take_small 3999 (by omega)

lemma g_s2 : pySlice gapText 3700 7700 = List.replicate 4000 32 := by
  unfold pySlice
  rw [g_py7700, g_py3700]
  rw [show gapText.take 7700 = 97 :: List.replicate 7699 32 from by
    rw [show (7700 : Nat) = 7699 + 1 from rfl]
    exact g_take_small 7699 (by omega)]
  rw [show (3700 : Nat) = 3699 + 1 from rfl, drop_cons_repl]

lemma g_s3 : pySlice gapText 7400 11400 = List.replicate 1601 32 ++ [98] := by
  unfold pySlice
  rw [g_py11400, g_py7400]
  rw [← g_length, List.take_length]
  rw [gapText, show (7400 : Nat) = 7399 + 1 from rfl, List.drop_succ_cons,
    List.drop_append_eq_append_drop, List.length_replicate, List.drop_replicate]
  rw [show (9000 - 7399 : Nat) = 1601 from rfl, show (7399 - 9000 : Nat) = 0 from rfl,
    List.drop_zero]

lemma strip_g_s1 : stripList (97 :: List.replicate 3999 32) = [97] := by
  unfold stripList
  rw [dropWhile_cons_eq_self (by decide)]
  rw [show (97 : Nat) :: List.replicate 3999 32 = [97] ++ List.replicate 3999 32 from rfl]
  rw [rdropWhile_append_replicate isPySpace [97] 3999 32 rfl]
  exact rdropWhile_eq_self_of_forall (fun c hc => by
    rcases List.mem_singleton.mp hc with rfl
    rfl)

lemma strip_g_s3 : stripList (List.replicate 1601 32 ++ [98]) = [98] := by
  unfold stripList
  rw [List.dropWhile_append_of_pos (fun a ha => by
    rw [List.eq_of_mem_replicate ha]; rfl)]
  rw [dropWhile_cons_eq_self (by decide)]
  exact rdropWhile_eq_self_of_forall (fun c hc => by
    rcases List.mem_singleton.mp hc with rfl
    rfl)

lemma g_spans : chunk_text_spans gapText = [(0, 4000), (7400, 11400)] := by
  rw [chunk_text_spans_def, g_length]
  rw [chunk_spans_loop_succ 9002 0 (by rw [g_length]; omega)]
  rw [g_e1, g_next1, g_s1, strip_g_s1]
  rw [show (([97] : List Nat) == []) = false from rfl, if_neg Bool.false_ne_true]
  rw [show (9002 : Nat) = 9001 + 1 from rfl]
  rw [chunk_spans_loop_succ 9001 3700 (by rw [g_length]; omega)]
  rw [g_e2, g_next2, g_s2, stripList_replicate_space]
  rw [show (([] : List Nat) == ([] : List Nat)) = true from rfl, if_pos rfl]
  rw [show (9001 : Nat) = 9000 + 1 from rfl]
  rw [chunk_spans_loop_succ 9000 7400 (by rw [g_length]; omega)]
  rw [g_e3, g_next3, g_s3, strip_g_s3]
  rw [show (([98] : List Nat) == []) = false from rfl, if_neg Bool.false_ne_true]
  rw [chunk_spans_loop_stop (by rw [g_length]; omega)]

/-- C2 as amended: for every normalized text at or above the threshold, every
position holding a non-whitespace character lies inside the span of some
emitted chunk; equivalently, any position not covered by an emitted span holds
whitespace.  (Full positional coverage fails: a splitter window consisting
entirely of whitespace strips to the empty chunk and is skipped, leaving its
positions outside every emitted span — see the counterexample.) -/
theorem c2_span_coverage (t : List Nat) (_hnorm : clean_text_for_llm t = t)
    (_hlen : 3000 ≤ t.length) (p : Nat) (hp : p < t.length)
    (hw : isPySpace (t.getD p 0) = false) :
    ∃ q ∈ chunk_text_spans t, q.1 ≤ (p : Int) ∧ (p : Int) < q.2 := by
  rw [chunk_text_spans_def]
  exact chunk_spans_loop_coverage (by omega) (t.length + 1) 0 le_rfl (by omega) p
    (by omega) hp hw

/-- Witness for C2: on the 3000-character normalized text tA, position 0 (a
non-whitespace character) lies in the single emitted span. -/
theorem c2_span_coverage_witness :
    clean_text_for_llm tA = tA ∧ 3000 ≤ tA.length ∧ 0 < tA.length ∧
    isPySpace (tA.getD 0 0) = false ∧
    ∃ q ∈ chunk_text_spans tA, q.1 ≤ ((0 : Nat) : Int) ∧ ((0 : Nat) : Int) < q.2 :=
  ⟨tA_clean, by rw [tA_length], by rw [tA_length]; omega, by decide,
   c2_span_coverage tA tA_clean (by rw [tA_length]) 0 (by rw [tA_length]; omega) (by decide)⟩

/-- Counterexample for C2 as stated: gapText is a fixed point of the
normalizer with length 9002 at the default configuration, yet position 5000
falls in no emitted chunk span — the window from 3700 to 7700 is entirely
whitespace and was skipped — so the emitted spans do not cover every
character position. -/
theorem c2_counterexample :
    clean_text_for_llm gapText = gapText ∧
    3000 ≤ gapText.length ∧
    5000 < gapText.length ∧
    chunk_text_spans gapText = [(0, 4000), (7400, 11400)] ∧
    ¬ ∃ q ∈ chunk_text_spans gapText, q.1 ≤ (5000 : Int) ∧ (5000 : Int) < q.2 := by
  refine ⟨g_clean, by rw [g_length]; omega, by rw [g_length]; omega, g_spans, ?_⟩
  rw [g_spans]
  decide


/-- C3 (the claim fails; the code stalls): with chunk_size = 1 and
overlap = 1 — so chunk_chars = overlap_chars = 4 — on a 10-character text the
loop start stays at 0 forever: the next-start computation returns 0 from 0
even though the loop guard still holds, and the fueled loop emits one chunk
per unit of fuel without ever reaching the text end, i.e. the source loop
never terminates.  The strictly-positive-progress property claimed for every
configuration is therefore false. -/
theorem c3_splitter_nonprogress :
    chunkNext tC3 (1 * CHARS_PER_TOKEN) (1 * CHARS_PER_TOKEN) 0 = 0 ∧
    (0 : Int) < (tC3.length : Int) ∧
    (∀ fuel, (chunk_spans_loop tC3 (1 * CHARS_PER_TOKEN) (1 * CHARS_PER_TOKEN)
      fuel 0).length = fuel) := by
  refine ⟨by decide, by decide, ?_⟩
  intro fuel
  induction fuel with
  | zero => rfl
  | succ n ih =>
    rw [show (1 * CHARS_PER_TOKEN : Nat) = 4 from rfl]
    rw [show (1 * CHARS_PER_TOKEN : Nat) = 4 from rfl] at ih
    rw [chunk_spans_loop_succ n 0 (by decide)]
    rw [show chunkIterEnd tC3 4 0 = 4 from by decide,
      show chunkNext tC3 4 4 0 = 0 from by decide]
    rw [show (stripList (pySlice tC3 0 4) == []) = false from by decide,
      if_neg Bool.false_ne_true]
    rw [List.length_cons, ih]


/-- C9 (the claim fails on the raw-text entry point): process_text has no
emptiness guard on its input.  On the empty text it normalizes to the empty
string, takes the single-pass path and issues one backend request; with a
backend returning a nonempty summary the pipeline ends in status complete,
and with a backend returning an empty summary it ends in status error with
the message Failed to generate summary — in neither case does it end in an
error mentioning missing content with zero backend calls, as claimed. -/
theorem c9_empty_text_no_guard :
    process_text bStub tfNone [] [] =
      ([updSummarizing, updComplete], PyResult.returned [111, 107]) ∧
    generate_summary_calls bStub tfNone [] [] = [LlmCall.single []] ∧
    ([LlmCall.single []] : List LlmCall) ≠ [] ∧
    process_text bEmptyResp tfNone [] [] =
      ([updSummarizing, updError failedGenMsg], PyResult.raised failedGenMsg) := by
  refine ⟨by decide, by decide, by decide, by decide⟩

example : clean_text_for_llm [] = [] := by decide

example : chunk_text_spans (List.replicate 20 97) 1 0 = [(0, 4), (4, 8), (8, 12), (12, 16), (16, 20)] := by decide

example : chunk_text (List.replicate 10 97) 1 1 ≠ [] := by decide

example : chunk_text_spans tSents 4 1 = [(0, 9), (5, 16), (12, 22), (18, 34)] := by decide

example : chunk_text tSents 4 1 =
    [[79, 110, 101, 46, 32, 84, 119, 111, 46],
     [84, 119, 111, 46, 32, 84, 104, 114, 101, 101, 46],
     [114, 101, 101, 46, 32, 70, 111, 117, 114, 46],
     [111, 117, 114, 46, 32, 70, 105, 118, 101, 46, 32, 83, 105, 120, 46]] := by decide

example : chunk_text_spans tSents 4 0 = [(0, 9), (9, 22), (22, 38)] := by decide

example : chunk_text_spans tSents 3 1 = [(0, 9), (5, 16), (12, 22), (18, 28), (24, 36)] := by decide

example : chunk_text_spans tSents 5 2 = [(0, 16), (8, 22), (14, 34)] := by decide

example : clean_text_for_llm [32, 32, 97, 32, 98, 32, 10, 10, 10, 32, 32, 99, 32, 32, 10, 100] =
    [97, 32, 98, 10, 99, 10, 100] := by decide

example : clean_text_for_llm [97, 98, 99, 100, 101, 102, 103, 104, 105, 106, 107, 108, 109, 110, 111] 10 =
    [97, 98, 99, 100, 101, 102, 103, 104, 105, 106] ++ truncationNotice := by decide
